import Mathlib

/-!
Verification of the Condado Dog pricing engine (`src/app.py`).

The three core functions are shallowly embedded over exact rational
arithmetic (`ℚ` for Python floats/decimals, `ℤ`/`ℕ` for integers):

* `calcular_diarias_com_tolerancia` — duration → billable daily units;
* `calcular_orcamento_base`         — tiered base-rate calculation;
* `calcular_desconto_mensalista`    — calendar-prorated plan discount,
  together with `contar_dias_da_semana_no_mes`, which counts the
  occurrences of a weekday in a month via the `calendar.monthcalendar`
  matrix.

Dates are modelled as proleptic-Gregorian `(year, month, day)` triples,
with `Date.toordinal` mirroring CPython's `date.toordinal` and weekday
`(toordinal + 6) % 7` (day 1 of year 1 is a Monday, index 0).
-/

/-- Python `math.floor(total_horas / 24)` composed with the tolerance
ladder of `calcular_diarias_com_tolerancia` (src/app.py lines 119-139).
`total_horas % 24` for a positive float is `total_horas - 24⌊total_horas/24⌋`. -/
def calcular_diarias_com_tolerancia (total_horas : ℚ) : ℚ :=
  if total_horas ≤ 0 then 0
  else if total_horas < 24 then 1
  else
    let dias_inteiros : ℤ := ⌊total_horas / 24⌋
    let horas_residuais : ℚ := total_horas - 24 * dias_inteiros
    if horas_residuais = 0 then (dias_inteiros : ℚ)
    else if horas_residuais ≤ 2 then (dias_inteiros : ℚ)
    else if horas_residuais ≤ 6 then (dias_inteiros : ℚ) + 1/4
    else if horas_residuais ≤ 12 then (dias_inteiros : ℚ) + 1/2
    else if horas_residuais ≤ 18 then (dias_inteiros : ℚ) + 3/4
    else (dias_inteiros : ℚ) + 1

lemma one_le_floor_div_24 {th : ℚ} (h : 24 ≤ th) : (1 : ℤ) ≤ ⌊th / 24⌋ := by
  rw [Int.le_floor]
  push_cast
  rw [le_div_iff₀ (by norm_num : (0:ℚ) < 24)]
  linarith

lemma one_le_floor_div_24' (th : ℚ) (h : 24 ≤ th) : (1 : ℚ) ≤ (⌊th / 24⌋ : ℚ) := by
  exact_mod_cast one_le_floor_div_24 h

lemma calcular_diarias_nonneg (th : ℚ) : 0 ≤ calcular_diarias_com_tolerancia th := by
  simp only [calcular_diarias_com_tolerancia]
  split_ifs with h1 h2
  · norm_num
  · norm_num
  all_goals
    have hf := one_le_floor_div_24' th (by linarith)
    linarith

lemma calcular_diarias_ge_one {th : ℚ} (h : 0 < th) :
    1 ≤ calcular_diarias_com_tolerancia th := by
  simp only [calcular_diarias_com_tolerancia]
  split_ifs with h1 h2
  · linarith
  · norm_num
  all_goals
    have hf := one_le_floor_div_24' th (by linarith)
    linarith

lemma calcular_diarias_floor_le {th : ℚ} (h : 24 ≤ th) :
    (⌊th / 24⌋ : ℚ) ≤ calcular_diarias_com_tolerancia th := by
  simp only [calcular_diarias_com_tolerancia]
  split_ifs <;> linarith

lemma calcular_diarias_le_floor_add_one {th : ℚ} (h : 24 ≤ th) :
    calcular_diarias_com_tolerancia th ≤ (⌊th / 24⌋ : ℚ) + 1 := by
  simp only [calcular_diarias_com_tolerancia]
  split_ifs <;> linarith

/-- C1: the duration converter follows Variant B (full-day minimum):
`0` for non-positive hours, `1` below 24 hours, and for `th ≥ 24` the
whole/remainder tolerance ladder with `whole = ⌊th/24⌋` and
`remainder = th - 24·whole` (Python `th % 24`). -/
theorem C1_duration_converter_variant_B (th : ℚ) :
    (th ≤ 0 → calcular_diarias_com_tolerancia th = 0) ∧
    (0 < th → th < 24 → calcular_diarias_com_tolerancia th = 1) ∧
    (24 ≤ th →
      (th - 24 * ⌊th / 24⌋ ≤ 2 →
        calcular_diarias_com_tolerancia th = (⌊th / 24⌋ : ℚ)) ∧
      (2 < th - 24 * ⌊th / 24⌋ → th - 24 * ⌊th / 24⌋ ≤ 6 →
        calcular_diarias_com_tolerancia th = (⌊th / 24⌋ : ℚ) + 1/4) ∧
      (6 < th - 24 * ⌊th / 24⌋ → th - 24 * ⌊th / 24⌋ ≤ 12 →
        calcular_diarias_com_tolerancia th = (⌊th / 24⌋ : ℚ) + 1/2) ∧
      (12 < th - 24 * ⌊th / 24⌋ → th - 24 * ⌊th / 24⌋ ≤ 18 →
        calcular_diarias_com_tolerancia th = (⌊th / 24⌋ : ℚ) + 3/4) ∧
      (18 < th - 24 * ⌊th / 24⌋ →
        calcular_diarias_com_tolerancia th = (⌊th / 24⌋ : ℚ) + 1)) := by
  refine ⟨fun h1 => ?_, fun h1 h2 => ?_, fun h24 => ⟨fun hr => ?_, fun hr hr' => ?_,
    fun hr hr' => ?_, fun hr hr' => ?_, fun hr => ?_⟩⟩ <;>
    simp only [calcular_diarias_com_tolerancia] <;> split_ifs <;> linarith

theorem C1_duration_converter_variant_B_witness :
    calcular_diarias_com_tolerancia 30 = 1 + 1/4 := by
  have hfl : ⌊(30 : ℚ) / 24⌋ = 1 := by norm_num [Int.floor_eq_iff]
  have h := ((C1_duration_converter_variant_B 30).2.2 (by norm_num)).2.1
  rw [hfl] at h
  have := h (by norm_num) (by norm_num)
  simpa using this

set_option maxHeartbeats 1600000 in
lemma calcular_diarias_mono_same_floor {th1 th2 : ℚ} (h24 : 24 ≤ th1) (h12 : th1 ≤ th2)
    (hf : ⌊th1 / 24⌋ = ⌊th2 / 24⌋) :
    calcular_diarias_com_tolerancia th1 ≤ calcular_diarias_com_tolerancia th2 := by
  have hfq : ((⌊th1 / 24⌋ : ℤ) : ℚ) = ((⌊th2 / 24⌋ : ℤ) : ℚ) := by exact_mod_cast hf
  simp only [calcular_diarias_com_tolerancia]
  split_ifs <;> linarith

/-- C8: the duration converter is monotone: more elapsed hours never
yield fewer billable units. -/
theorem C8_duration_converter_monotone (th1 th2 : ℚ) (h : th1 < th2) :
    calcular_diarias_com_tolerancia th1 ≤ calcular_diarias_com_tolerancia th2 := by
  rcases le_or_lt th1 0 with h0 | h0
  · have e1 : calcular_diarias_com_tolerancia th1 = 0 := by
      simp only [calcular_diarias_com_tolerancia]
      rw [if_pos h0]
    rw [e1]
    exact calcular_diarias_nonneg th2
  · rcases lt_or_le th1 24 with h24 | h24
    · have e1 : calcular_diarias_com_tolerancia th1 = 1 := by
        simp only [calcular_diarias_com_tolerancia]
        rw [if_neg (not_le.mpr h0), if_pos h24]
      rw [e1]
      exact calcular_diarias_ge_one (lt_trans h0 h)
    · have h24' : (24 : ℚ) ≤ th2 := by linarith
      have hdiv : th1 / 24 ≤ th2 / 24 := by linarith
      have hw : ⌊th1 / 24⌋ ≤ ⌊th2 / 24⌋ := Int.floor_le_floor hdiv
      rcases eq_or_lt_of_le hw with heq | hlt
      · exact calcular_diarias_mono_same_floor h24 (le_of_lt h) heq
      · have hstep : (⌊th1 / 24⌋ : ℚ) + 1 ≤ (⌊th2 / 24⌋ : ℚ) := by
          have : ⌊th1 / 24⌋ + 1 ≤ ⌊th2 / 24⌋ := hlt
          exact_mod_cast this
        calc calcular_diarias_com_tolerancia th1
            ≤ (⌊th1 / 24⌋ : ℚ) + 1 := calcular_diarias_le_floor_add_one h24
          _ ≤ (⌊th2 / 24⌋ : ℚ) := hstep
          _ ≤ calcular_diarias_com_tolerancia th2 := calcular_diarias_floor_le h24'

theorem C8_duration_converter_monotone_witness :
    calcular_diarias_com_tolerancia 3 ≤ calcular_diarias_com_tolerancia 5 :=
  C8_duration_converter_monotone 3 5 (by norm_num)

/-! ## Dates and datetimes (CPython `datetime` semantics) -/

/-- A proleptic-Gregorian calendar date, as in Python's `datetime.date`. -/
structure Date where
  year : ℕ
  month : ℕ
  day : ℕ
deriving DecidableEq

/-- Python `calendar.isleap`. -/
def isLeap (y : ℕ) : Bool := (y % 4 == 0 && y % 100 != 0) || y % 400 == 0

/-- Number of days of month `m` of year `y` (CPython `_days_in_month`). -/
def daysInMonth (y m : ℕ) : ℕ :=
  if m = 2 then (if isLeap y then 29 else 28)
  else if m = 4 ∨ m = 6 ∨ m = 9 ∨ m = 11 then 30
  else 31

/-- Days in year `y` strictly before month `m` (CPython `_days_before_month`). -/
def daysBeforeMonth (y m : ℕ) : ℕ :=
  ((List.range (m - 1)).map (fun k => daysInMonth y (k + 1))).sum

/-- CPython `date.toordinal`: day count with `0001-01-01` as ordinal 1. -/
def Date.toordinal (d : Date) : ℕ :=
  365 * (d.year - 1) + (d.year - 1) / 4 - (d.year - 1) / 100 + (d.year - 1) / 400
    + daysBeforeMonth d.year d.month + d.day

/-- A timestamp: a calendar date plus seconds elapsed since its midnight
(`0 ≤ secs < 86400` for timestamps Python's `datetime` can represent). -/
structure DateTime where
  date : Date
  secs : ℕ
deriving DecidableEq

/-- Absolute time of a timestamp, in (fractional) hours.  Differences of
this quantity are Python's `(b - a).total_seconds() / 3600`, and for valid
timestamps its order is `datetime` comparison order. -/
def DateTime.toHours (dt : DateTime) : ℚ := 24 * dt.date.toordinal + (dt.secs : ℚ) / 3600

/-! ## The daily rate table -/

/-- One row of the `Diária` rate table: `Quantidade de Diárias`,
`Valor da Diária` (normal price) and `Alta temporada` (high-season price). -/
structure Tier where
  qtd : ℤ
  valorNormal : ℚ
  valorAlta : ℚ
deriving DecidableEq

/-- Row access at the price column selected by the season flag
(`'Alta temporada' if alta_temporada else 'Valor da Diária'`). -/
def Tier.preco (t : Tier) (alta : Bool) : ℚ := if alta then t.valorAlta else t.valorNormal

/-- Placeholder row used with `headD` where the source's `.iloc[0]` is
applied to a DataFrame already known to be non-empty. -/
def dummyTier : Tier := ⟨0, 0, 0⟩

/-- Insert a row into a list ascending by `Quantidade de Diárias`. -/
def insereAsc (t : Tier) : List Tier → List Tier
  | [] => [t]
  | u :: us => if t.qtd ≤ u.qtd then t :: u :: us else u :: insereAsc t us

/-- `df.sort_values('Quantidade de Diárias')` (ascending key sort). -/
def ordenaAsc (l : List Tier) : List Tier := l.foldr insereAsc []

/-- Insert a row into a list descending by `Quantidade de Diárias`. -/
def insereDesc (t : Tier) : List Tier → List Tier
  | [] => [t]
  | u :: us => if u.qtd ≤ t.qtd then t :: u :: us else u :: insereDesc t us

/-- `df.sort_values('Quantidade de Diárias', ascending=False)`. -/
def ordenaDesc (l : List Tier) : List Tier := l.foldr insereDesc []

/-- `df['Quantidade de Diárias'].max()` on a non-empty table. -/
def colMax : List Tier → ℤ
  | [] => 0
  | t :: ts => (ts.map Tier.qtd).foldl max t.qtd

/-- The package-price lookup of `calcular_orcamento_base`
(src/app.py lines 163-171): clamp above the table's maximum tier, else
exact match on `Quantidade de Diárias`, else the highest tier below;
`none` models the `IndexError` raised by `.iloc[0]` on an empty selection. -/
def tierLookup (df : List Tier) (alta : Bool) (dias_para_lookup : ℤ) : Option ℚ :=
  if colMax df < dias_para_lookup then
    (ordenaDesc df).head?.map (fun t => t.preco alta)
  else
    match (df.filter (fun t => t.qtd == dias_para_lookup)).head? with
    | some t => some (t.preco alta)
    | none => (ordenaDesc (df.filter (fun t => t.qtd ≤ dias_para_lookup))).head?.map
        (fun t => t.preco alta)

/-- The 1-day base price used for fractions (src/app.py lines 159-160):
the row with `Quantidade de Diárias == 1` if present, else the first row
of the ascending sort (the smallest tier). -/
def valor_diaria_base (df : List Tier) (alta : Bool) : ℚ :=
  match (df.filter (fun t => t.qtd == 1)).head? with
  | some t => t.preco alta
  | none => ((ordenaAsc df).headD dummyTier).preco alta

/-- Outcome of `calcular_orcamento_base`: the `(None, None, None)` early
return, a computed triple, or an uncaught `IndexError`. -/
inductive Resultado where
  | nulo : Resultado
  | ok (qtd_diarias valor_diaria valor_total : ℚ) : Resultado
  | erro : Resultado
deriving DecidableEq

/-- `calcular_orcamento_base` (src/app.py lines 141-182). -/
def calcular_orcamento_base (df : List Tier) (num_caes : ℤ)
    (entrada_dt saida_dt : DateTime) (alta_temporada : Bool) : Resultado :=
  if df.isEmpty ∨ num_caes ≤ 0 then .nulo
  else if saida_dt.toHours ≤ entrada_dt.toHours then .nulo
  else
    let total_horas : ℚ := saida_dt.toHours - entrada_dt.toHours
    let qtd_diarias_cobradas := calcular_diarias_com_tolerancia total_horas
    let dias_para_lookup : ℤ :=
      if ⌊qtd_diarias_cobradas⌋ = 0 then 1 else ⌊qtd_diarias_cobradas⌋
    match tierLookup df alta_temporada dias_para_lookup with
    | none => .erro
    | some valor_diaria_pacote =>
      let dias_inteiros : ℤ := ⌊qtd_diarias_cobradas⌋
      let fracao_diaria : ℚ := qtd_diarias_cobradas - dias_inteiros
      let custo_dias_inteiros : ℚ := (dias_inteiros : ℚ) * valor_diaria_pacote
      let custo_fracao : ℚ := fracao_diaria * valor_diaria_base df alta_temporada
      .ok qtd_diarias_cobradas valor_diaria_pacote
        ((num_caes : ℚ) * (custo_dias_inteiros + custo_fracao))

/-! ## Facts about the sort and max helpers -/

lemma mem_insereDesc {t x : Tier} {l : List Tier} :
    x ∈ insereDesc t l ↔ x = t ∨ x ∈ l := by
  induction l with
  | nil => simp [insereDesc]
  | cons u us ih =>
    simp only [insereDesc]
    split_ifs with h
    · simp [List.mem_cons]
    · simp only [List.mem_cons, ih]
      tauto

lemma insereDesc_ne_nil {t : Tier} {l : List Tier} : insereDesc t l ≠ [] := by
  cases l with
  | nil => simp [insereDesc]
  | cons u us =>
    simp only [insereDesc]
    split_ifs <;> simp

lemma mem_ordenaDesc {x : Tier} {l : List Tier} : x ∈ ordenaDesc l ↔ x ∈ l := by
  induction l with
  | nil => simp [ordenaDesc]
  | cons u us ih =>
    show x ∈ insereDesc u (ordenaDesc us) ↔ _
    rw [mem_insereDesc, ih]
    simp [List.mem_cons]

lemma ordenaDesc_ne_nil {l : List Tier} (h : l ≠ []) : ordenaDesc l ≠ [] := by
  cases l with
  | nil => exact absurd rfl h
  | cons u us => exact insereDesc_ne_nil

lemma pairwise_insereDesc {t : Tier} {l : List Tier}
    (h : l.Pairwise (fun a b => b.qtd ≤ a.qtd)) :
    (insereDesc t l).Pairwise (fun a b => b.qtd ≤ a.qtd) := by
  induction l with
  | nil => simp [insereDesc]
  | cons u us ih =>
    rcases List.pairwise_cons.mp h with ⟨hu, hus⟩
    simp only [insereDesc]
    split_ifs with hle
    · refine List.pairwise_cons.mpr ⟨?_, h⟩
      intro x hx
      rcases List.mem_cons.mp hx with rfl | hx
      · exact hle
      · exact le_trans (hu x hx) hle
    · refine List.pairwise_cons.mpr ⟨?_, ih hus⟩
      intro x hx
      rcases mem_insereDesc.mp hx with rfl | hx
      · exact le_of_not_le hle
      · exact hu x hx

lemma pairwise_ordenaDesc (l : List Tier) :
    (ordenaDesc l).Pairwise (fun a b => b.qtd ≤ a.qtd) := by
  induction l with
  | nil => simp [ordenaDesc]
  | cons u us ih => exact pairwise_insereDesc ih

lemma ordenaDesc_head?_spec {l : List Tier} {h : Tier}
    (hh : (ordenaDesc l).head? = some h) : h ∈ l ∧ ∀ x ∈ l, x.qtd ≤ h.qtd := by
  rcases hd : ordenaDesc l with _ | ⟨a, rest⟩
  · rw [hd] at hh
    exact absurd hh (by simp)
  · rw [hd] at hh
    simp only [List.head?_cons, Option.some.injEq] at hh
    rw [← hh]
    have hmem : a ∈ l := mem_ordenaDesc.mp (by rw [hd]; exact List.mem_cons_self _ _)
    refine ⟨hmem, fun x hx => ?_⟩
    have hx' : x ∈ ordenaDesc l := mem_ordenaDesc.mpr hx
    rw [hd] at hx'
    rcases List.mem_cons.mp hx' with rfl | hx'
    · exact le_refl _
    · have hp := pairwise_ordenaDesc l
      rw [hd] at hp
      exact (List.pairwise_cons.mp hp).1 x hx'

lemma ordenaDesc_head?_isSome (l : List Tier) (hl : l ≠ []) :
    ∃ h, (ordenaDesc l).head? = some h := by
  rcases hd : ordenaDesc l with _ | ⟨a, rest⟩
  · exact absurd hd (ordenaDesc_ne_nil hl)
  · exact ⟨a, by simp⟩

lemma eq_of_pairwise_qtd_ne {l : List Tier}
    (h : l.Pairwise (fun a b => a.qtd ≠ b.qtd)) {a b : Tier}
    (ha : a ∈ l) (hb : b ∈ l) (he : a.qtd = b.qtd) : a = b := by
  induction l with
  | nil => exact absurd ha (by simp)
  | cons u us ih =>
    rcases List.pairwise_cons.mp h with ⟨hu, hus⟩
    rcases List.mem_cons.mp ha with rfl | ha' <;> rcases List.mem_cons.mp hb with rfl | hb'
    · rfl
    · exact absurd he (hu b hb')
    · exact absurd he.symm (hu a ha')
    · exact ih hus ha' hb'

lemma le_foldlMax (l : List ℤ) (a : ℤ) :
    a ≤ l.foldl max a ∧ ∀ x ∈ l, x ≤ l.foldl max a := by
  induction l generalizing a with
  | nil => simp
  | cons y ys ih =>
    rcases ih (max a y) with ⟨h1, h2⟩
    refine ⟨le_trans (le_max_left a y) h1, fun x hx => ?_⟩
    rcases List.mem_cons.mp hx with rfl | hx
    · exact le_trans (le_max_right a x) h1
    · exact h2 x hx

lemma foldlMax_mem (l : List ℤ) (a : ℤ) : l.foldl max a = a ∨ l.foldl max a ∈ l := by
  induction l generalizing a with
  | nil => simp
  | cons y ys ih =>
    rcases ih (max a y) with h | h
    · rcases max_choice a y with hm | hm
      · left
        rw [List.foldl_cons, h, hm]
      · right
        rw [List.foldl_cons, h, hm]
        exact List.mem_cons_self _ _
    · right
      exact List.mem_cons_of_mem _ h

lemma le_colMax {l : List Tier} : ∀ x ∈ l, x.qtd ≤ colMax l := by
  intro x hx
  cases l with
  | nil => exact absurd hx (by simp)
  | cons t ts =>
    rcases List.mem_cons.mp hx with rfl | hx'
    · exact (le_foldlMax (ts.map Tier.qtd) x.qtd).1
    · exact (le_foldlMax (ts.map Tier.qtd) t.qtd).2 x.qtd (List.mem_map_of_mem _ hx')

lemma colMax_is_some_qtd {l : List Tier} (hl : l ≠ []) : ∃ t ∈ l, colMax l = t.qtd := by
  cases l with
  | nil => exact absurd rfl hl
  | cons t ts =>
    rcases foldlMax_mem (ts.map Tier.qtd) t.qtd with h | h
    · exact ⟨t, List.mem_cons_self _ _, h⟩
    · rcases List.mem_map.mp h with ⟨u, hu, he⟩
      exact ⟨u, List.mem_cons_of_mem _ hu, he.symm⟩

/-- C6: every precondition violation — empty rate table, non-positive dog
count, or checkout not after checkin — makes `calcular_orcamento_base`
return the null triple and nothing else. -/
theorem C6_invalid_input_yields_null (df : List Tier) (num_caes : ℤ)
    (entrada_dt saida_dt : DateTime) (alta : Bool)
    (h : df = [] ∨ num_caes ≤ 0 ∨ saida_dt.toHours ≤ entrada_dt.toHours) :
    calcular_orcamento_base df num_caes entrada_dt saida_dt alta = .nulo := by
  simp only [calcular_orcamento_base]
  rcases h with h | h | h
  · rw [if_pos (Or.inl (List.isEmpty_iff.mpr h))]
  · rw [if_pos (Or.inr h)]
  · split_ifs with h1
    · rfl
    · rfl

theorem C6_invalid_input_yields_null_witness :
    calcular_orcamento_base [] 1 ⟨⟨2024, 1, 1⟩, 0⟩ ⟨⟨2024, 1, 2⟩, 0⟩ false = .nulo :=
  C6_invalid_input_yields_null [] 1 ⟨⟨2024, 1, 1⟩, 0⟩ ⟨⟨2024, 1, 2⟩, 0⟩ false (Or.inl rfl)

/-! ## C3: the tier-lookup policy -/

lemma head?_eq_some_of_mem {t : Tier} {l : List Tier} (ht : t ∈ l) :
    ∃ a, l.head? = some a := by
  cases l with
  | nil => exact absurd ht (by simp)
  | cons a rest => exact ⟨a, rfl⟩

/-- C3: on a table with pairwise-distinct tier sizes, `tierLookup`
resolves an exact `Quantidade de Diárias` match to that row's price,
otherwise the highest tier at or below the lookup value, and clamps any
lookup above the table maximum to the maximum tier's price; on the
table `{1:100, 3:270, 7:560}` a lookup of 5 resolves to 270. -/
theorem C3_tier_lookup_policy (df : List Tier) (alta : Bool) (lkp : ℤ)
    (huniq : df.Pairwise (fun a b => a.qtd ≠ b.qtd)) :
    (∀ t ∈ df, t.qtd = lkp → tierLookup df alta lkp = some (t.preco alta)) ∧
    ((∀ u ∈ df, u.qtd ≠ lkp) → lkp ≤ colMax df →
      ∀ t ∈ df, t.qtd ≤ lkp → (∀ u ∈ df, u.qtd ≤ lkp → u.qtd ≤ t.qtd) →
      tierLookup df alta lkp = some (t.preco alta)) ∧
    (colMax df < lkp → ∀ t ∈ df, (∀ u ∈ df, u.qtd ≤ t.qtd) →
      tierLookup df alta lkp = some (t.preco alta)) ∧
    tierLookup [⟨1, 100, 100⟩, ⟨3, 270, 270⟩, ⟨7, 560, 560⟩] false 5 = some 270 := by
  refine ⟨?_, ?_, ?_, ?_⟩
  · -- exact match
    intro t ht he
    have hle : ¬ colMax df < lkp := not_lt.mpr (he ▸ le_colMax t ht)
    have htf : t ∈ df.filter (fun u => u.qtd == lkp) := by
      simp only [List.mem_filter, beq_iff_eq]
      exact ⟨ht, he⟩
    rcases hf : df.filter (fun u => u.qtd == lkp) with _ | ⟨a, rest⟩
    · rw [hf] at htf
      exact absurd htf (by simp)
    · have ha : a ∈ df.filter (fun u => u.qtd == lkp) := by
        rw [hf]
        exact List.mem_cons_self _ _
      have ha' : a ∈ df ∧ a.qtd = lkp := by
        simpa only [List.mem_filter, beq_iff_eq] using ha
      have : a = t := eq_of_pairwise_qtd_ne huniq ha'.1 ht (ha'.2.trans he.symm)
      simp only [tierLookup, if_neg hle, hf, List.head?_cons, this]
  · -- no exact match, highest tier at or below
    intro hnone hle t ht htle hmax
    have hf : df.filter (fun u => u.qtd == lkp) = [] := by
      rw [List.filter_eq_nil_iff]
      intro u hu
      simpa only [beq_iff_eq] using hnone u hu
    have htf : t ∈ df.filter (fun u => decide (u.qtd ≤ lkp)) := by
      simp only [List.mem_filter, decide_eq_true_eq]
      exact ⟨ht, htle⟩
    rcases ordenaDesc_head?_isSome (df.filter (fun u => decide (u.qtd ≤ lkp)))
      (by intro hnil; rw [hnil] at htf; exact absurd htf (by simp)) with ⟨h, hh⟩
    rcases ordenaDesc_head?_spec hh with ⟨hmem, hge⟩
    have hmem' : h ∈ df ∧ h.qtd ≤ lkp := by
      simpa only [List.mem_filter, decide_eq_true_eq] using hmem
    have heq : h = t := by
      refine eq_of_pairwise_qtd_ne huniq hmem'.1 ht (le_antisymm ?_ ?_)
      · exact hmax h hmem'.1 hmem'.2
      · exact hge t htf
    simp only [tierLookup, if_neg (not_lt.mpr hle), hf, List.head?_nil, hh, heq,
      Option.map_some']
  · -- clamp above the maximum
    intro hgt t ht hmaxt
    have hne : df ≠ [] := by
      intro hnil
      rw [hnil] at ht
      exact absurd ht (by simp)
    rcases ordenaDesc_head?_isSome df hne with ⟨h, hh⟩
    rcases ordenaDesc_head?_spec hh with ⟨hmem, hge⟩
    have heq : h = t :=
      eq_of_pairwise_qtd_ne huniq hmem ht (le_antisymm (hmaxt h hmem) (hge t ht))
    simp only [tierLookup, if_pos hgt, hh, heq, Option.map_some']
  · rfl

theorem C3_tier_lookup_policy_witness :
    tierLookup [⟨1, 100, 100⟩, ⟨3, 270, 270⟩, ⟨7, 560, 560⟩] false 5 =
      some (Tier.preco ⟨3, 270, 270⟩ false) := by
  refine (C3_tier_lookup_policy [⟨1, 100, 100⟩, ⟨3, 270, 270⟩, ⟨7, 560, 560⟩] false 5
    ?_).2.1 ?_ ?_ ⟨3, 270, 270⟩ ?_ ?_ ?_
  · refine List.Pairwise.cons ?_ (List.Pairwise.cons ?_ (List.Pairwise.cons ?_ ?_)) <;>
      simp
  · intro u hu
    rcases List.mem_cons.mp hu with rfl | hu
    · decide
    rcases List.mem_cons.mp hu with rfl | hu
    · decide
    rcases List.mem_cons.mp hu with rfl | hu
    · decide
    · exact absurd hu (by simp)
  · show (5:ℤ) ≤ colMax _
    decide
  · exact List.mem_cons_of_mem _ (List.mem_cons_self _ _)
  · decide
  · intro u hu
    rcases List.mem_cons.mp hu with rfl | hu
    · intro h
      decide
    rcases List.mem_cons.mp hu with rfl | hu
    · intro h
      decide
    rcases List.mem_cons.mp hu with rfl | hu
    · intro h
      exact absurd h (by decide)
    · exact absurd hu (by simp)

/-! ## C7 and C2: behaviour of `calcular_orcamento_base` under preconditions -/

lemma tierLookup_isSome {df : List Tier} (alta : Bool) {lkp : ℤ} {t1 : Tier}
    (ht1 : t1 ∈ df) (hle : t1.qtd ≤ lkp) : ∃ v, tierLookup df alta lkp = some v := by
  have hne : df ≠ [] := fun h => by rw [h] at ht1; exact absurd ht1 (by simp)
  unfold tierLookup
  split_ifs with hgt
  · rcases ordenaDesc_head?_isSome df hne with ⟨h, hh⟩
    rw [hh]
    exact ⟨_, rfl⟩
  · cases hf : (df.filter (fun t => t.qtd == lkp)).head? with
    | some t => exact ⟨_, rfl⟩
    | none =>
      have htf : t1 ∈ df.filter (fun t => decide (t.qtd ≤ lkp)) := by
        simp only [List.mem_filter, decide_eq_true_eq]
        exact ⟨ht1, hle⟩
      rcases ordenaDesc_head?_isSome (df.filter (fun t => decide (t.qtd ≤ lkp)))
        (fun hnil => by rw [hnil] at htf; exact absurd htf (by simp)) with ⟨h, hh⟩
      rw [hh]
      exact ⟨_, rfl⟩

lemma valor_diaria_base_eq {df : List Tier} {alta : Bool} {p1 : ℚ}
    (hpos : ∀ t ∈ df, 1 ≤ t.qtd) (h : tierLookup df alta 1 = some p1) :
    valor_diaria_base df alta = p1 := by
  unfold tierLookup at h
  split_ifs at h with hgt
  · rcases Option.map_eq_some'.mp h with ⟨h0, hh0, hp⟩
    rcases ordenaDesc_head?_spec hh0 with ⟨hmem, _⟩
    have h1 := hpos h0 hmem
    have h2 := le_colMax h0 hmem
    omega
  · cases hf : (df.filter (fun t => t.qtd == 1)).head? with
    | some t =>
      rw [hf] at h
      simp only [Option.some.injEq] at h
      simp only [valor_diaria_base, hf]
      exact h
    | none =>
      exfalso
      rw [hf] at h
      rcases Option.map_eq_some'.mp h with ⟨h0, hh0, hp⟩
      rcases ordenaDesc_head?_spec hh0 with ⟨hmem, _⟩
      have hm : h0 ∈ df ∧ h0.qtd ≤ 1 := by
        simpa only [List.mem_filter, decide_eq_true_eq] using hmem
      have hq1 : h0.qtd = 1 := le_antisymm hm.2 (hpos h0 hm.1)
      have hnil : df.filter (fun t => t.qtd == 1) = [] := List.head?_eq_none_iff.mp hf
      have : h0 ∈ df.filter (fun t => t.qtd == 1) := by
        simp only [List.mem_filter, beq_iff_eq]
        exact ⟨hm.1, hq1⟩
      rw [hnil] at this
      exact absurd this (by simp)

/-- Amendment of C7: with a 1-unit tier present in the table (as every
deployed rate table has), all error branches of `calcular_orcamento_base`
are indeed unreachable under the preconditions, and an `ok` triple is
returned.  Without that extra hypothesis the claim fails, see the
counterexample. -/
theorem C7_no_error_when_unit_tier_present (df : List Tier) (num_caes : ℤ)
    (entrada_dt saida_dt : DateTime) (alta : Bool) (t1 : Tier)
    (ht1 : t1 ∈ df) (hq1 : t1.qtd = 1) (hnum : 0 < num_caes)
    (hes : entrada_dt.toHours < saida_dt.toHours) :
    ∃ q v tot, calcular_orcamento_base df num_caes entrada_dt saida_dt alta =
      .ok q v tot := by
  have hne : df ≠ [] := fun h => by rw [h] at ht1; exact absurd ht1 (by simp)
  simp only [calcular_orcamento_base]
  rw [if_neg (by simp only [List.isEmpty_iff, hne, false_or]; omega),
    if_neg (not_le.mpr hes)]
  have hth : (0 : ℚ) < saida_dt.toHours - entrada_dt.toHours := sub_pos.mpr hes
  have hq : 1 ≤ calcular_diarias_com_tolerancia (saida_dt.toHours - entrada_dt.toHours) :=
    calcular_diarias_ge_one hth
  have hfl : (1 : ℤ) ≤
      ⌊calcular_diarias_com_tolerancia (saida_dt.toHours - entrada_dt.toHours)⌋ := by
    rw [Int.le_floor]
    exact_mod_cast hq
  have hne0 :
      ¬ ⌊calcular_diarias_com_tolerancia (saida_dt.toHours - entrada_dt.toHours)⌋ = 0 := by
    omega
  rw [if_neg hne0]
  rcases tierLookup_isSome alta ht1
    (show t1.qtd ≤ ⌊calcular_diarias_com_tolerancia
      (saida_dt.toHours - entrada_dt.toHours)⌋ by omega) with ⟨v, hv⟩
  rw [hv]
  exact ⟨_, _, _, rfl⟩

theorem C7_no_error_when_unit_tier_present_witness :
    ∃ q v tot, calcular_orcamento_base [⟨1, 100, 100⟩] 1
      ⟨⟨2024, 1, 1⟩, 0⟩ ⟨⟨2024, 1, 2⟩, 0⟩ false = .ok q v tot := by
  refine C7_no_error_when_unit_tier_present _ _ _ _ _ ⟨1, 100, 100⟩
    (List.mem_cons_self _ _) rfl (by norm_num) ?_
  have h1 : Date.toordinal ⟨2024, 1, 1⟩ = 738886 := by decide
  have h2 : Date.toordinal ⟨2024, 1, 2⟩ = 738887 := by decide
  simp only [DateTime.toHours, h1, h2]
  norm_num

/-- Counterexample to C7 as stated: the table `{3: 300}` has positive,
pairwise-distinct tier sizes and the stay satisfies every precondition
(one dog, 30 elapsed hours), yet `calcular_orcamento_base` reaches the
`IndexError` branch: the lookup tier is 1, no exact row matches, and the
sub-table of rows with `Quantidade de Diárias ≤ 1` is empty, so
`.iloc[0]` raises. -/
theorem C7_safety_counterexample :
    calcular_orcamento_base [⟨3, 300, 300⟩] 1 ⟨⟨2024, 1, 1⟩, 0⟩ ⟨⟨2024, 1, 2⟩, 21600⟩ false
      = .erro ∧
    ([⟨3, 300, 300⟩] : List Tier) ≠ [] ∧
    List.Pairwise (fun a b => a.qtd ≠ b.qtd) [(⟨3, 300, 300⟩ : Tier)] ∧
    (∀ t ∈ [(⟨3, 300, 300⟩ : Tier)], 0 < t.qtd) ∧ ((0 : ℤ) < 1) ∧
    (⟨⟨2024, 1, 1⟩, 0⟩ : DateTime).toHours < (⟨⟨2024, 1, 2⟩, 21600⟩ : DateTime).toHours := by
  have hA : (⟨⟨2024, 1, 1⟩, 0⟩ : DateTime).toHours = 17733264 := by
    rw [DateTime.toHours, show Date.toordinal ⟨2024, 1, 1⟩ = 738886 from by decide]
    norm_num
  have hB : (⟨⟨2024, 1, 2⟩, 21600⟩ : DateTime).toHours = 17733294 := by
    rw [DateTime.toHours, show Date.toordinal ⟨2024, 1, 2⟩ = 738887 from by decide]
    norm_num
  have hth : (⟨⟨2024, 1, 2⟩, 21600⟩ : DateTime).toHours -
      (⟨⟨2024, 1, 1⟩, 0⟩ : DateTime).toHours = 30 := by
    rw [hA, hB]
    norm_num
  have hq30 : calcular_diarias_com_tolerancia 30 = 5/4 := by
    have hfl : ⌊(30 : ℚ) / 24⌋ = 1 := by norm_num [Int.floor_eq_iff]
    simp only [calcular_diarias_com_tolerancia, hfl]
    norm_num
  refine ⟨?_, by simp, by simp, ?_, by norm_num, by rw [hA, hB]; norm_num⟩
  · simp only [calcular_orcamento_base]
    rw [if_neg (by simp), if_neg (by rw [hA, hB]; norm_num)]
    rw [hth, hq30, show ⌊(5/4 : ℚ)⌋ = 1 from by norm_num [Int.floor_eq_iff]]
    rw [if_neg (by decide : ¬ (1 : ℤ) = 0)]
    rw [show tierLookup [⟨3, 300, 300⟩] false 1 = none from rfl]
  · intro t ht
    rcases List.mem_cons.mp ht with rfl | ht
    · decide
    · exact absurd ht (by simp)

/-- C2: whenever the lookup policy resolves a price `pW` for the whole
part `W = ⌊billable_units⌋` and a price `p1` for a single unit, the
returned triple is `(units, pW, dogs × (W × pW + F × p1))`, with the
fractional remainder `F` priced at the single-unit rate and the price
column selected by the season flag inside `tierLookup`. -/
theorem C2_gross_total_formula (df : List Tier) (num_caes : ℤ)
    (entrada_dt saida_dt : DateTime) (alta : Bool) (pW p1 : ℚ)
    (hne : df ≠ []) (hpos : ∀ t ∈ df, 1 ≤ t.qtd) (hnum : 0 < num_caes)
    (hes : entrada_dt.toHours < saida_dt.toHours)
    (hW : tierLookup df alta
      ⌊calcular_diarias_com_tolerancia (saida_dt.toHours - entrada_dt.toHours)⌋ = some pW)
    (h1 : tierLookup df alta 1 = some p1) :
    calcular_orcamento_base df num_caes entrada_dt saida_dt alta =
      .ok (calcular_diarias_com_tolerancia (saida_dt.toHours - entrada_dt.toHours)) pW
        ((num_caes : ℚ) *
          ((⌊calcular_diarias_com_tolerancia (saida_dt.toHours - entrada_dt.toHours)⌋ : ℚ)
              * pW +
            (calcular_diarias_com_tolerancia (saida_dt.toHours - entrada_dt.toHours) -
              (⌊calcular_diarias_com_tolerancia
                (saida_dt.toHours - entrada_dt.toHours)⌋ : ℚ)) * p1)) := by
  simp only [calcular_orcamento_base]
  rw [if_neg (by simp only [List.isEmpty_iff, hne, false_or]; omega),
    if_neg (not_le.mpr hes)]
  have hth : (0 : ℚ) < saida_dt.toHours - entrada_dt.toHours := sub_pos.mpr hes
  have hq := calcular_diarias_ge_one hth
  have hfl : (1 : ℤ) ≤
      ⌊calcular_diarias_com_tolerancia (saida_dt.toHours - entrada_dt.toHours)⌋ := by
    rw [Int.le_floor]
    exact_mod_cast hq
  have hne0 :
      ¬ ⌊calcular_diarias_com_tolerancia (saida_dt.toHours - entrada_dt.toHours)⌋ = 0 := by
    omega
  rw [if_neg hne0, hW, valor_diaria_base_eq hpos h1]

theorem C2_gross_total_formula_witness :
    calcular_orcamento_base [⟨1, 100, 100⟩, ⟨3, 270, 270⟩, ⟨7, 560, 560⟩] 2
      ⟨⟨2024, 1, 1⟩, 0⟩ ⟨⟨2024, 1, 6⟩, 14400⟩ false = .ok (21/4) 270 2750 := by
  have hA : (⟨⟨2024, 1, 1⟩, 0⟩ : DateTime).toHours = 17733264 := by
    rw [DateTime.toHours, show Date.toordinal ⟨2024, 1, 1⟩ = 738886 from by decide]
    norm_num
  have hD : (⟨⟨2024, 1, 6⟩, 14400⟩ : DateTime).toHours = 17733388 := by
    rw [DateTime.toHours, show Date.toordinal ⟨2024, 1, 6⟩ = 738891 from by decide]
    norm_num
  have hdiff : (⟨⟨2024, 1, 6⟩, 14400⟩ : DateTime).toHours -
      (⟨⟨2024, 1, 1⟩, 0⟩ : DateTime).toHours = 124 := by
    rw [hA, hD]
    norm_num
  have hq : calcular_diarias_com_tolerancia 124 = 21/4 := by
    have hfl : ⌊(124 : ℚ) / 24⌋ = 5 := by norm_num [Int.floor_eq_iff]
    simp only [calcular_diarias_com_tolerancia, hfl]
    norm_num
  have hfl2 : ⌊(21/4 : ℚ)⌋ = 5 := by norm_num [Int.floor_eq_iff]
  have h := C2_gross_total_formula [⟨1, 100, 100⟩, ⟨3, 270, 270⟩, ⟨7, 560, 560⟩] 2
    ⟨⟨2024, 1, 1⟩, 0⟩ ⟨⟨2024, 1, 6⟩, 14400⟩ false 270 100 (by simp) ?_ (by norm_num) ?_ ?_ ?_
  · rw [hdiff, hq, hfl2] at h
    rw [h]
    simp only [Resultado.ok.injEq]
    norm_num
  · intro t ht
    rcases List.mem_cons.mp ht with rfl | ht
    · decide
    rcases List.mem_cons.mp ht with rfl | ht
    · decide
    rcases List.mem_cons.mp ht with rfl | ht
    · decide
    · exact absurd ht (by simp)
  · rw [hA, hD]
    norm_num
  · rw [hdiff, hq, hfl2]
    rfl
  · rfl

/-! ## The monthly-plan discount calculator -/

/-- One row of a `Mensal` / `Mensal Fidelidade` table:
`Vezes por semana` and `Valor`. -/
structure PlanoRow where
  vezes : ℤ
  valor : ℚ
deriving DecidableEq

/-- Python `calendar.monthcalendar` slices its flat day list into weeks
of 7 (`days[i:i+7]`). -/
def chunk7 : List ℕ → List (List ℕ)
  | [] => []
  | a :: b :: c :: d :: e :: f :: g :: rest => [a, b, c, d, e, f, g] :: chunk7 rest
  | l => [l]

/-- Weekday index (Monday = 0) of the first day of month `m` of year `y`,
as computed by Python's `date.weekday`. -/
def firstWeekdayOfMonth (y m : ℕ) : ℕ := (Date.toordinal ⟨y, m, 1⟩ + 6) % 7

/-- The week matrix of `calendar.monthcalendar` as a function of the
first day's weekday and the month length: `(day1 - firstweekday) % 7`
zeros, the day numbers `1..nd`, and zeros padding the final week
(`(firstweekday - day1 - ndays) % 7`, with `firstweekday = 0`). -/
def buildMonth (day1 nd : ℕ) : List (List ℕ) :=
  chunk7 (List.replicate (day1 % 7) 0 ++ (List.range nd).map (· + 1) ++
    List.replicate ((7 - (day1 + nd) % 7) % 7) 0)

/-- Python `calendar.monthcalendar(ano, mes)`. -/
def monthcalendar (ano mes : ℕ) : List (List ℕ) :=
  buildMonth (firstWeekdayOfMonth ano mes) (daysInMonth ano mes)

/-- The week loop of `contar_dias_da_semana_no_mes`: one increment per
week whose slot `dia` is non-zero. -/
def contarSemanas (matriz_mes : List (List ℕ)) (dia_da_semana : ℕ) : ℕ :=
  matriz_mes.foldl
    (fun contador semana => if semana.getD dia_da_semana 0 ≠ 0 then contador + 1 else contador) 0

/-- `contar_dias_da_semana_no_mes` (src/app.py lines 184-190). -/
def contar_dias_da_semana_no_mes (ano mes dia_da_semana : ℕ) : ℕ :=
  contarSemanas (monthcalendar ano mes) dia_da_semana

/-- Specification-side count: the number of dates of month `m`/`y` whose
Python weekday (`(toordinal + 6) % 7`) equals `dia`. -/
def occurrencesInMonth (y m dia : ℕ) : ℕ :=
  (List.range (daysInMonth y m)).countP
    (fun i => (Date.toordinal ⟨y, m, i + 1⟩ + 6) % 7 == dia)

/-- `total_dias_plano_no_mes` of `calcular_desconto_mensalista`
(src/app.py lines 207-209), accumulated over the selected weekdays. -/
def totalDiasPlanoNoMes (entrada_dt : DateTime) (dias_plano_daycare : List ℕ) : ℕ :=
  dias_plano_daycare.foldl
    (fun acc dia =>
      acc + contar_dias_da_semana_no_mes entrada_dt.date.year entrada_dt.date.month dia) 0

/-- `valor_diario_proporcional` (src/app.py lines 211-214): the guarded
proration `valor_mensal / total_dias_plano_no_mes`, `0` when the total
is zero. -/
def valorDiarioProporcional (entrada_dt : DateTime) (dias_plano_daycare : List ℕ)
    (valor_mensal : ℚ) : ℚ :=
  if 0 < totalDiasPlanoNoMes entrada_dt dias_plano_daycare then
    valor_mensal / (totalDiasPlanoNoMes entrada_dt dias_plano_daycare : ℚ)
  else 0

/-- The date-walking loop of `calcular_desconto_mensalista`
(src/app.py lines 216-222), over `date.toordinal` values: a date's
weekday is `(toordinal + 6) % 7` and `+ timedelta(days=1)` is `+1`. -/
def contarCoincidentes (dias_plano_daycare : List ℕ) (data_atual data_fim : ℕ) : ℕ :=
  if data_atual ≤ data_fim then
    (if (data_atual + 6) % 7 ∈ dias_plano_daycare then 1 else 0) +
      contarCoincidentes dias_plano_daycare (data_atual + 1) data_fim
  else 0
termination_by data_fim + 1 - data_atual

/-- `calcular_desconto_mensalista` (src/app.py lines 192-225). -/
def calcular_desconto_mensalista (entrada_dt saida_dt : DateTime)
    (dias_plano_daycare : List ℕ) (df_plano : List PlanoRow) (num_caes : ℤ) : ℚ × ℕ :=
  if dias_plano_daycare.isEmpty ∨ df_plano.isEmpty then (0, 0)
  else
    match (df_plano.filter
        (fun r => r.vezes == (dias_plano_daycare.length : ℤ))).head? with
    | none => (0, 0)
    | some plano_row =>
      let valor_diario_proporcional :=
        valorDiarioProporcional entrada_dt dias_plano_daycare plano_row.valor
      let dias_coincidentes :=
        contarCoincidentes dias_plano_daycare entrada_dt.date.toordinal
          saida_dt.date.toordinal
      ((dias_coincidentes : ℚ) * valor_diario_proporcional * (num_caes : ℚ),
        dias_coincidentes)

/-- The `Valor` of the plan row matching `len(dias_plano_daycare)`
occurrences per week (0 when no row matches). -/
def valorMensalDoPlano (df_plano : List PlanoRow) (dias_plano_daycare : List ℕ) : ℚ :=
  (((df_plano.filter
      (fun r => r.vezes == (dias_plano_daycare.length : ℤ))).head?).map PlanoRow.valor).getD 0

/-- The caller's composition (src/app.py lines 355-369):
`valor_final = valor_total_base - desconto`. -/
def orcamento_com_desconto (df : List Tier) (df_plano : List PlanoRow)
    (dias_plano_daycare : List ℕ) (num_caes : ℤ) (entrada_dt saida_dt : DateTime)
    (alta : Bool) : Resultado :=
  match calcular_orcamento_base df num_caes entrada_dt saida_dt alta with
  | .ok q v t => .ok q v
      (t - (calcular_desconto_mensalista entrada_dt saida_dt dias_plano_daycare
        df_plano num_caes).1)
  | r => r

/-! ## Counting lemmas for the calendar month and the date loop -/

set_option maxRecDepth 4000 in
lemma buildMonth_count : ∀ d1 : Fin 7, ∀ k : Fin 4, ∀ dia : Fin 7,
    contarSemanas (buildMonth d1.val (28 + k.val)) dia.val =
      (List.range (28 + k.val)).countP (fun i => (d1.val + i) % 7 == dia.val) ∧
    0 < contarSemanas (buildMonth d1.val (28 + k.val)) dia.val := by decide

lemma buildMonth_count' (d1 k dia : ℕ) (h1 : d1 < 7) (hk : k < 4) (hd : dia < 7) :
    contarSemanas (buildMonth d1 (28 + k)) dia =
      (List.range (28 + k)).countP (fun i => (d1 + i) % 7 == dia) ∧
    0 < contarSemanas (buildMonth d1 (28 + k)) dia :=
  buildMonth_count ⟨d1, h1⟩ ⟨k, hk⟩ ⟨dia, hd⟩

lemma daysInMonth_bounds (y m : ℕ) : 28 ≤ daysInMonth y m ∧ daysInMonth y m ≤ 31 := by
  unfold daysInMonth
  split_ifs <;> omega

/-- The week-matrix count of `contar_dias_da_semana_no_mes` equals the
direct per-date weekday count, and is always positive. -/
lemma contar_spec (y m dia : ℕ) (hd : dia < 7) :
    contar_dias_da_semana_no_mes y m dia = occurrencesInMonth y m dia ∧
    0 < contar_dias_da_semana_no_mes y m dia := by
  have hb := daysInMonth_bounds y m
  have hd1 : firstWeekdayOfMonth y m < 7 := Nat.mod_lt _ (by norm_num)
  have hk4 : daysInMonth y m - 28 < 4 := by omega
  have hnd : 28 + (daysInMonth y m - 28) = daysInMonth y m := by omega
  have key := buildMonth_count' (firstWeekdayOfMonth y m) (daysInMonth y m - 28) dia
    hd1 hk4 hd
  rw [hnd] at key
  have hcontar : contar_dias_da_semana_no_mes y m dia =
      contarSemanas (buildMonth (firstWeekdayOfMonth y m) (daysInMonth y m)) dia := rfl
  constructor
  · rw [hcontar, key.1]
    unfold occurrencesInMonth
    refine List.countP_congr fun i _ => ?_
    have h1 : Date.toordinal ⟨y, m, i + 1⟩ + 6 = Date.toordinal ⟨y, m, 1⟩ + 6 + i := by
      simp only [Date.toordinal]
      omega
    have h2 : (firstWeekdayOfMonth y m + i) % 7 = (Date.toordinal ⟨y, m, i + 1⟩ + 6) % 7 := by
      rw [h1, firstWeekdayOfMonth, Nat.mod_add_mod]
    rw [h2]
  · rw [hcontar]
    exact key.2

lemma foldl_add_map_sum (f : ℕ → ℕ) (l : List ℕ) (a : ℕ) :
    l.foldl (fun acc d => acc + f d) a = a + (l.map f).sum := by
  induction l generalizing a with
  | nil => simp
  | cons x xs ih =>
    simp only [List.foldl_cons, List.map_cons, List.sum_cons]
    rw [ih]
    omega

lemma totalDiasPlanoNoMes_eq (entrada_dt : DateTime) (dias : List ℕ)
    (hwd : ∀ d ∈ dias, d < 7) :
    totalDiasPlanoNoMes entrada_dt dias =
      (dias.map (fun d =>
        occurrencesInMonth entrada_dt.date.year entrada_dt.date.month d)).sum := by
  unfold totalDiasPlanoNoMes
  rw [foldl_add_map_sum]
  rw [Nat.zero_add]
  induction dias with
  | nil => simp
  | cons d rest ih =>
    simp only [List.map_cons, List.sum_cons]
    rw [(contar_spec _ _ d (hwd d (by simp))).1, ih (fun x hx => hwd x (by simp [hx]))]

lemma totalDiasPlanoNoMes_pos (entrada_dt : DateTime) (dias : List ℕ)
    (hne : dias ≠ []) (hwd : ∀ d ∈ dias, d < 7) :
    0 < totalDiasPlanoNoMes entrada_dt dias := by
  cases dias with
  | nil => exact absurd rfl hne
  | cons d rest =>
    unfold totalDiasPlanoNoMes
    rw [foldl_add_map_sum]
    simp only [List.map_cons, List.sum_cons]
    have h := (contar_spec entrada_dt.date.year entrada_dt.date.month d (hwd d (by simp))).2
    omega

/-- The date-walking loop counts exactly the ordinals in the inclusive
range whose weekday is among the selected ones. -/
lemma contarCoincidentes_eq_card (dias : List ℕ) (a b : ℕ) :
    contarCoincidentes dias a b =
      ((Finset.Icc a b).filter (fun n => (n + 6) % 7 ∈ dias)).card := by
  suffices H : ∀ n a, b + 1 - a ≤ n →
      contarCoincidentes dias a b =
        ((Finset.Icc a b).filter (fun n => (n + 6) % 7 ∈ dias)).card from
    H (b + 1 - a) a le_rfl
  intro n
  induction n with
  | zero =>
    intro a h
    unfold contarCoincidentes
    rw [if_neg (by omega), Finset.Icc_eq_empty (by omega)]
    simp
  | succ n ih =>
    intro a h
    unfold contarCoincidentes
    by_cases hab : a ≤ b
    · rw [if_pos hab, ih (a + 1) (by omega)]
      have hicc : Finset.Icc a b = insert a (Finset.Icc (a + 1) b) := by
        ext x
        simp only [Finset.mem_Icc, Finset.mem_insert]
        omega
      rw [hicc, Finset.filter_insert]
      by_cases hm : (a + 6) % 7 ∈ dias
      · rw [if_pos hm, if_pos hm, Finset.card_insert_of_not_mem
          (by rintro hmem; rw [Finset.mem_filter, Finset.mem_Icc] at hmem; omega)]
        omega
      · rw [if_neg hm, if_neg hm]
        omega
    · rw [if_neg hab, Finset.Icc_eq_empty hab]
      simp

/-- C4: Variant B proration.  With a non-empty weekday selection (valid
weekday indices) matching a plan row, `total_dias_plano_no_mes` is the
sum over the selected weekdays of their occurrence counts in check-in's
calendar month, and the per-day value is the row's monthly price divided
by that total; the returned discount is built from exactly this per-day
value. -/
theorem C4_calendar_proration (entrada_dt saida_dt : DateTime) (dias : List ℕ)
    (df_plano : List PlanoRow) (num_caes : ℤ) (row : PlanoRow)
    (hne : dias ≠ []) (hwd : ∀ d ∈ dias, d < 7)
    (hrow : (df_plano.filter (fun r => r.vezes == (dias.length : ℤ))).head? = some row) :
    totalDiasPlanoNoMes entrada_dt dias =
      (dias.map (fun d =>
        occurrencesInMonth entrada_dt.date.year entrada_dt.date.month d)).sum ∧
    valorDiarioProporcional entrada_dt dias row.valor =
      row.valor / (((dias.map (fun d =>
        occurrencesInMonth entrada_dt.date.year entrada_dt.date.month d)).sum : ℕ) : ℚ) ∧
    (calcular_desconto_mensalista entrada_dt saida_dt dias df_plano num_caes).1 =
      (((calcular_desconto_mensalista entrada_dt saida_dt dias df_plano num_caes).2 : ℕ) : ℚ) *
        (row.valor / (((dias.map (fun d =>
          occurrencesInMonth entrada_dt.date.year entrada_dt.date.month d)).sum : ℕ) : ℚ)) *
        (num_caes : ℚ) := by
  have h1 := totalDiasPlanoNoMes_eq entrada_dt dias hwd
  have h2 := totalDiasPlanoNoMes_pos entrada_dt dias hne hwd
  have h3 : valorDiarioProporcional entrada_dt dias row.valor =
      row.valor / (((dias.map (fun d =>
        occurrencesInMonth entrada_dt.date.year entrada_dt.date.month d)).sum : ℕ) : ℚ) := by
    unfold valorDiarioProporcional
    rw [if_pos h2, h1]
  refine ⟨h1, h3, ?_⟩
  have hpne : df_plano ≠ [] := by
    intro hc
    rw [hc] at hrow
    exact absurd hrow (by simp)
  unfold calcular_desconto_mensalista
  rw [if_neg (by simp [List.isEmpty_iff, hne, hpne])]
  rw [hrow]
  simp only [h3]

theorem C4_calendar_proration_witness :
    valorDiarioProporcional ⟨⟨2024, 1, 29⟩, 0⟩ [0] (400 : ℚ) = 80 := by
  have h := (C4_calendar_proration ⟨⟨2024, 1, 29⟩, 0⟩ ⟨⟨2024, 2, 5⟩, 0⟩ [0] [⟨1, 400⟩] 1
    ⟨1, 400⟩ (by simp)
    (by
      intro d hd
      rcases List.mem_cons.mp hd with rfl | hd
      · norm_num
      · exact absurd hd (by simp)) rfl).2.1
  dsimp only at h
  rw [show ([0].map (fun d => occurrencesInMonth 2024 1 d)).sum = 5 from by decide] at h
  rw [h]
  norm_num

/-- C5: the returned `matching_day_count` is exactly the number of
calendar dates (ordinals) in the inclusive range from check-in's date to
check-out's date whose Python weekday lies in the plan, and the returned
discount is that count times the per-day value times the dog count —
whenever the computation proceeds (empty plan, or a matching plan row). -/
theorem C5_matching_day_count (entrada_dt saida_dt : DateTime) (dias : List ℕ)
    (df_plano : List PlanoRow) (num_caes : ℤ)
    (hci : entrada_dt.toHours ≤ saida_dt.toHours)
    (hrow : dias = [] ∨ (df_plano.filter
      (fun r => r.vezes == (dias.length : ℤ))).head?.isSome = true) :
    calcular_desconto_mensalista entrada_dt saida_dt dias df_plano num_caes =
      ((((Finset.Icc entrada_dt.date.toordinal saida_dt.date.toordinal).filter
            (fun n => (n + 6) % 7 ∈ dias)).card : ℚ) *
          valorDiarioProporcional entrada_dt dias (valorMensalDoPlano df_plano dias) *
          (num_caes : ℚ),
        ((Finset.Icc entrada_dt.date.toordinal saida_dt.date.toordinal).filter
            (fun n => (n + 6) % 7 ∈ dias)).card) := by
  by_cases hdias : dias = []
  · subst hdias
    unfold calcular_desconto_mensalista
    rw [if_pos (Or.inl (show ([] : List ℕ).isEmpty = true from rfl))]
    have hc : ((Finset.Icc entrada_dt.date.toordinal saida_dt.date.toordinal).filter
        (fun n => (n + 6) % 7 ∈ ([] : List ℕ))).card = 0 := by
      rw [Finset.filter_false_of_mem (fun x _ => by simp)]
      simp
    rw [hc]
    simp
  · rcases hrow with h | h
    · exact absurd h hdias
    · rcases Option.isSome_iff_exists.mp h with ⟨row, hr⟩
      have hpne : df_plano ≠ [] := by
        intro hc
        rw [hc] at hr
        exact absurd hr (by simp)
      unfold calcular_desconto_mensalista
      rw [if_neg (by simp [List.isEmpty_iff, hdias, hpne])]
      rw [hr]
      have hv : valorMensalDoPlano df_plano dias = row.valor := by
        unfold valorMensalDoPlano
        rw [hr]
        rfl
      rw [contarCoincidentes_eq_card, hv]

theorem C5_matching_day_count_witness :
    calcular_desconto_mensalista ⟨⟨2024, 1, 29⟩, 0⟩ ⟨⟨2024, 2, 5⟩, 0⟩ [0] [⟨1, 400⟩] 1 =
      (160, 2) := by
  have hA : Date.toordinal ⟨2024, 1, 29⟩ = 738914 := by decide
  have hB : Date.toordinal ⟨2024, 2, 5⟩ = 738921 := by decide
  have h := C5_matching_day_count ⟨⟨2024, 1, 29⟩, 0⟩ ⟨⟨2024, 2, 5⟩, 0⟩ [0] [⟨1, 400⟩] 1 ?_ ?_
  · dsimp only at h
    rw [hA, hB] at h
    rw [h]
    rw [show ((Finset.Icc 738914 738921).filter (fun n => (n + 6) % 7 ∈ [0])).card = 2
      from by decide]
    have hvd : valorDiarioProporcional ⟨⟨2024, 1, 29⟩, 0⟩ [0]
        (valorMensalDoPlano [⟨1, 400⟩] [0]) = 80 := by
      unfold valorDiarioProporcional
      rw [show totalDiasPlanoNoMes ⟨⟨2024, 1, 29⟩, 0⟩ [0] = 5 from by decide]
      rw [if_pos (by norm_num)]
      rw [show valorMensalDoPlano [⟨1, 400⟩] [0] = 400 from rfl]
      norm_num
    rw [hvd]
    simp only [Prod.mk.injEq]
    norm_num
  · simp only [DateTime.toHours, hA, hB]
    norm_num
  · right
    rfl

/-- C9: with an empty weekday selection, or when no plan row has the
selected weekly frequency, the discount calculator returns `(0, 0)`, and
the caller's `base − discount` composition leaves the base-rate result
untouched. -/
theorem C9_missing_plan_row_zero (entrada_dt saida_dt : DateTime) (dias : List ℕ)
    (df_plano : List PlanoRow) (df : List Tier) (num_caes : ℤ) (alta : Bool)
    (h : dias = [] ∨ (df_plano.filter
      (fun r => r.vezes == (dias.length : ℤ))).head? = none) :
    calcular_desconto_mensalista entrada_dt saida_dt dias df_plano num_caes = (0, 0) ∧
    orcamento_com_desconto df df_plano dias num_caes entrada_dt saida_dt alta =
      calcular_orcamento_base df num_caes entrada_dt saida_dt alta := by
  have h1 : calcular_desconto_mensalista entrada_dt saida_dt dias df_plano num_caes
      = (0, 0) := by
    unfold calcular_desconto_mensalista
    by_cases he : dias.isEmpty ∨ df_plano.isEmpty
    · rw [if_pos he]
    · rw [if_neg he]
      rcases h with h | h
      · exact absurd (Or.inl (List.isEmpty_iff.mpr h)) he
      · rw [h]
  refine ⟨h1, ?_⟩
  unfold orcamento_com_desconto
  cases hb : calcular_orcamento_base df num_caes entrada_dt saida_dt alta with
  | nulo => rfl
  | ok q v t =>
    rw [h1]
    norm_num
  | erro => rfl

theorem C9_missing_plan_row_zero_witness :
    calcular_desconto_mensalista ⟨⟨2024, 1, 1⟩, 0⟩ ⟨⟨2024, 1, 2⟩, 0⟩ [0, 1] [⟨1, 400⟩] 1 =
      (0, 0) ∧
    orcamento_com_desconto [⟨1, 100, 100⟩] [⟨1, 400⟩] [0, 1] 1 ⟨⟨2024, 1, 1⟩, 0⟩
      ⟨⟨2024, 1, 2⟩, 0⟩ false =
      calcular_orcamento_base [⟨1, 100, 100⟩] 1 ⟨⟨2024, 1, 1⟩, 0⟩ ⟨⟨2024, 1, 2⟩, 0⟩ false :=
  C9_missing_plan_row_zero _ _ _ _ _ _ _ (Or.inr rfl)

/-- C10: the proration division is guarded: a zero
`total_dias_plano_no_mes` makes the per-day value 0 (no division is
performed) and the returned discount 0. -/
theorem C10_division_guard (entrada_dt saida_dt : DateTime) (dias : List ℕ)
    (df_plano : List PlanoRow) (num_caes : ℤ) (valor_mensal : ℚ)
    (h : totalDiasPlanoNoMes entrada_dt dias = 0) :
    valorDiarioProporcional entrada_dt dias valor_mensal = 0 ∧
    (calcular_desconto_mensalista entrada_dt saida_dt dias df_plano num_caes).1 = 0 := by
  have h1 : ∀ v : ℚ, valorDiarioProporcional entrada_dt dias v = 0 := by
    intro v
    unfold valorDiarioProporcional
    rw [h]
    norm_num
  refine ⟨h1 _, ?_⟩
  unfold calcular_desconto_mensalista
  by_cases he : dias.isEmpty ∨ df_plano.isEmpty
  · rw [if_pos he]
  · rw [if_neg he]
    cases hr : (df_plano.filter (fun r => r.vezes == (dias.length : ℤ))).head? with
    | none => rfl
    | some row =>
      show ((contarCoincidentes dias entrada_dt.date.toordinal
          saida_dt.date.toordinal : ℕ) : ℚ) *
          valorDiarioProporcional entrada_dt dias row.valor * (num_caes : ℚ) = 0
      rw [h1]
      ring

theorem C10_division_guard_witness :
    valorDiarioProporcional ⟨⟨2024, 1, 1⟩, 0⟩ [] (5 : ℚ) = 0 ∧
    (calcular_desconto_mensalista ⟨⟨2024, 1, 1⟩, 0⟩ ⟨⟨2024, 1, 2⟩, 0⟩ [] [] 1).1 = 0 :=
  C10_division_guard _ _ _ _ _ _ rfl
